import Mathlib

/-!
Verification of the Forge watch/notify/deploy core.

This file gives a shallow embedding of the Go sources of the Forge
repository watcher (observer, deployer, git host clients, config
validation) and proves the behavioural claims about them.

Modelling conventions:
* Go `error` values are strings (`GoError`); `nil` error is `Except.ok`.
* `time.Time` is a natural number; `t.After(u)` is `u < t`.
* External effects (docker API calls, filesystem removal, network
  fetches) are passed in as explicit oracle functions or result values,
  so each embedded function is a pure function of its inputs.
-/

namespace Forge

/-- Go errors are modelled by their message. -/
abbrev GoError := String

/-- Model of `time.Time` as a natural number; `a.After b` is `b < a`. -/
abbrev Time := Nat

/-- Mirrors `git.Repository` (internal/clients/git/client.go). -/
structure Repository where
  id : Int := 0
  name : String := ""
  fullname : String := ""
  description : Option String := none
  isPrivate : Bool := false
  pushedAt : Time := 0
  createdAt : Time := 0
  updatedAt : Time := 0
deriving Repr, DecidableEq

/-! ## Observer (internal/observer/observer.go) -/

/-- Outcome of one subscriber invocation `sub(ctx)`. -/
abbrev SubOutcome := Except GoError Unit

/-- Whether a subscriber invocation returned a nil error. -/
def subOk : SubOutcome → Bool
  | .ok _ => true
  | .error _ => false

/-- Number of `wg.Done()` calls performed by `notify`'s goroutines
(observer.go:86-100): each goroutine runs `sub(ctx)`; on a non-nil
error it logs and returns without calling `wg.Done()`; only on the
success path does it call `wg.Done()`. -/
def notifyDoneCalls (outcomes : List SubOutcome) : Nat :=
  (outcomes.filter subOk).length

/-- Whether the barrier releases: `notify` calls
`wg.Add(len(o.subscriptions))` and then `wg.Wait()`;
the wait (and hence `notify`) returns exactly when the counter was
decremented once per subscriber, i.e. when every goroutine reached its
`wg.Done()` call. -/
def notifyCompletes (outcomes : List SubOutcome) : Bool :=
  notifyDoneCalls outcomes == outcomes.length

/-- The environment of one iteration of the `Observe` loop: whether the
cancellation signal is set at the top of the tick, what
`o.git.GetRepository(ctx)` returns, and the outcomes of this tick's
subscriber invocations should `notify` run. -/
structure TickInput where
  cancelled : Bool
  fetch : Except GoError Repository
  subOutcomes : List SubOutcome
deriving Repr

/-- Observable events of one loop iteration, in program order. -/
inductive Event where
  | fetchOk (pushedAt : Time)
  | fetchErr (e : GoError)
  | notifyStart
  | notifyReturn
  | setWatermark (t : Time)
  | sleep
deriving Repr, DecidableEq

/-- How one loop iteration ended. -/
inductive StepResult where
  | exitClean
  | exitErr (e : GoError)
  | hang (last : Time)
  | next (last : Time)
deriving Repr, DecidableEq

/-- One iteration of the `for`/`select` loop in `Observe`
(observer.go:61-83), with its event trace.  `last` is the current value
of the package variable `lastPushed`.

* `<-ctx.Done()` ready: return `nil`.
* `GetRepository` error: return it.
* `r.PushedAt.After(lastPushed)`: run `o.notify(ctx)`; if the barrier
  releases (`notifyCompletes`), the assignment `lastPushed = r.PushedAt`
  runs and the iteration falls through to `time.Sleep`; otherwise
  `wg.Wait()` never returns and the loop is stuck inside `notify`.
* otherwise: fall through to `time.Sleep` with `lastPushed` unchanged. -/
def observeTick (last : Time) (t : TickInput) : List Event × StepResult :=
  if t.cancelled then ([], .exitClean)
  else
    match t.fetch with
    | .error e => ([.fetchErr e], .exitErr e)
    | .ok r =>
      if last < r.pushedAt then
        if notifyCompletes t.subOutcomes then
          ([.fetchOk r.pushedAt, .notifyStart, .notifyReturn,
            .setWatermark r.pushedAt, .sleep], .next r.pushedAt)
        else
          ([.fetchOk r.pushedAt, .notifyStart], .hang last)
      else
        ([.fetchOk r.pushedAt, .sleep], .next last)

/-- Final result of running the `Observe` loop over a finite schedule of
tick environments. -/
inductive RunResult where
  | clean
  | err (e : GoError)
  | hung
  | outOfTicks (last : Time)
deriving Repr, DecidableEq

/-- Run the `Observe` loop over a finite schedule of tick inputs. -/
def observeRun (last : Time) : List TickInput → RunResult
  | [] => .outOfTicks last
  | t :: ts =>
    match (observeTick last t).snd with
    | .exitClean => .clean
    | .exitErr e => .err e
    | .hang _ => .hung
    | .next l => observeRun l ts

/-- The value of `lastPushed` after running the loop over a finite
schedule (unchanged by the iteration that exits or hangs). -/
def watermarkAfterRun (last : Time) : List TickInput → Time
  | [] => last
  | t :: ts =>
    match (observeTick last t).snd with
    | .exitClean => last
    | .exitErr _ => last
    | .hang l => l
    | .next l => watermarkAfterRun l ts

/-! ## Git host clients (internal/clients/git, github, gitlab) -/

/-- Mirrors Go `strings.Split(s, "/")` for the one-character separator
used by the clients: splitting `""` yields `[""]`. -/
def splitSlashChars : List Char → List (List Char)
  | [] => [[]]
  | c :: rest =>
    let r := splitSlashChars rest
    if c = '/' then [] :: r
    else
      match r with
      | [] => [[c]]
      | h :: t => (c :: h) :: t

/-- Lift of `strings.Split(s, "/")` to strings. -/
def goSplitSlash (s : String) : List String :=
  (splitSlashChars s.toList).map (fun l => String.mk l)

/-- Mirrors Go `strings.TrimPrefix(s, "/")`: drop one leading slash if
present, otherwise return the string unchanged. -/
def goTrimLeadSlash (s : String) : String :=
  match s.toList with
  | '/' :: rest => String.mk rest
  | _ => s

/-- Minimal model of `*url.URL` as it is consumed by client
construction: only `.Path` is read. -/
structure URL where
  path : String
deriving Repr, DecidableEq

/-- Mirrors `git.GitClientParams` (client.go); `Option` captures Go
`nil` for the pointer fields. -/
structure GitClientParams where
  repository : Option URL
  accessToken : String
  httpClient : Option Unit
deriving Repr

def errNilRepoURL : GoError := "repository URL cannot be nil"

def errNilHttpClient : GoError := "HTTP client cannot be nil"

def errEmptyAccessToken : GoError := "access token cannot be empty"

def errInvalidRepoURL : GoError := "invalid repository URL"

/-- Mirrors `git.ValidateParams` (client.go:89-102). -/
def validateParams (p : GitClientParams) : Except GoError Unit :=
  if p.repository.isNone then .error errNilRepoURL
  else if p.httpClient.isNone then .error errNilHttpClient
  else if p.accessToken = "" then .error errEmptyAccessToken
  else .ok ()

/-- The data a constructed host client carries (common to the GitHub
and GitLab variants). -/
structure HostClient where
  baseHost : String
  author : String
  repo : String
  accessToken : String
deriving Repr, DecidableEq

/-- Mirrors `github.New` (github.go:40-63): validate the params, trim
one leading `/` from the URL path, split on `/`, reject unless exactly
two parts, else build the client with `author = s[0]`, `repo = s[1]`. -/
def githubNew (p : GitClientParams) : Except GoError HostClient :=
  match validateParams p with
  | .error e => .error e
  | .ok _ =>
    match p.repository with
    | none => .error errNilRepoURL
    | some u =>
      let repoPath := goTrimLeadSlash u.path
      match goSplitSlash repoPath with
      | [author, repo] =>
        .ok { baseHost := "api.github.com", author := author,
              repo := repo, accessToken := p.accessToken }
      | _ => .error errInvalidRepoURL

/-- Mirrors `gitlab.New`: identical shape to `github.New`, with
`api.gitlab.com` as the base host. -/
def gitlabNew (p : GitClientParams) : Except GoError HostClient :=
  match validateParams p with
  | .error e => .error e
  | .ok _ =>
    match p.repository with
    | none => .error errNilRepoURL
    | some u =>
      let repoPath := goTrimLeadSlash u.path
      match goSplitSlash repoPath with
      | [author, repo] =>
        .ok { baseHost := "api.gitlab.com", author := author,
              repo := repo, accessToken := p.accessToken }
      | _ => .error errInvalidRepoURL

def errUnimplemented : GoError := "unimplemented"

/-- Mirrors `GitLabClient.Ping`: unconditionally `errUnimplemented`. -/
def gitlabPing (_ctx : Unit) : Except GoError Unit :=
  .error errUnimplemented

/-- Mirrors `GitLabClient.GetRepository`: unconditionally
`(nil, errUnimplemented)`. -/
def gitlabGetRepository (_ctx : Unit) : Except GoError Repository :=
  .error errUnimplemented

/-! ## Configuration (internal/config, `MustParse`) -/

def githubHost : String := "github.com"

def gitlabHost : String := "gitlab.com"

/-- The inputs `MustParse` inspects before it builds a `Config`.  File
reading, YAML unmarshalling and URL parsing are external; their results
enter as fields (`readFileErr`, `unmarshalErr`, the parsed URL's
hostname and serialisation). -/
structure RawConfig where
  accessToken : String
  readFileErr : Option GoError
  unmarshalErr : Option GoError
  logOutputDir : String
  urlParseErr : Option GoError
  repoHostname : String
  repoURLString : String
  cloneDir : String
  interval : Int
  timeout : Int
deriving Repr

/-- The validated configuration (path normalisation of the two
directories is environment-dependent and carried over verbatim). -/
structure Config where
  observerInterval : Int
  httpTimeout : Int
  cloneDir : String
  logOutputDir : String
  repoURLString : String
  accessToken : String
deriving Repr, DecidableEq

/-- Mirrors `config.MustParse`: each Go `panic` is an `Except.error`.
The checks run in source order; in particular the interval and timeout
checks are `== 0` comparisons. -/
def mustParse (c : RawConfig) : Except GoError Config :=
  if c.accessToken = "" then
    .error "No git access token provided"
  else if c.readFileErr.isSome then
    .error "Failed to read config file"
  else if c.unmarshalErr.isSome then
    .error "Failed to unmarshal config file"
  else if c.logOutputDir = "" then
    .error "Invalid log output directory"
  else if c.urlParseErr.isSome then
    .error "Failed to parse repository URL"
  else if c.repoURLString = "" then
    .error "Invalid repo URL"
  else if ¬(c.repoHostname = githubHost ∨ c.repoHostname = gitlabHost) then
    .error "Invalid git host"
  else if c.cloneDir = "" then
    .error "Invalid git clone directory"
  else if c.interval = 0 then
    .error "Invalid observer interval"
  else if c.timeout = 0 then
    .error "Invalid http client timeout"
  else
    .ok { observerInterval := c.interval, httpTimeout := c.timeout,
          cloneDir := c.cloneDir, logOutputDir := c.logOutputDir,
          repoURLString := c.repoURLString, accessToken := c.accessToken }

/-! ## Container deployer (internal/deployer/dfile.go) -/

/-- Docker container states (`container.State...` constants). -/
inductive ContainerState where
  | created
  | running
  | paused
  | restarting
  | removing
  | exited
  | dead
deriving Repr, DecidableEq

/-- Mirrors `isStoppable` (dfile.go:107-113). -/
def isStoppable : ContainerState → Bool
  | .running => true
  | .paused => true
  | .restarting => true
  | _ => false

/-- Mirrors `container.Summary` as consumed by the deployer. -/
structure ContainerSummary where
  id : String
  names : List String
  state : ContainerState
deriving Repr, DecidableEq

/-- The fields of `container.RemoveOptions` set by the deployer. -/
structure RemoveOptions where
  removeVolumes : Bool
  removeLinks : Bool
  force : Bool
deriving Repr, DecidableEq

/-- Docker API calls issued by the teardown step, in order. -/
inductive DockerAction where
  | stop (id : String)
  | remove (id : String) (opts : RemoveOptions)
deriving Repr, DecidableEq

/-- The container a docker action addresses. -/
def DockerAction.targetId : DockerAction → String
  | .stop i => i
  | .remove i _ => i

/-- The remove options of dfile.go:93-97: volumes and links removed,
no force. -/
def deployerRemoveOpts : RemoveOptions :=
  { removeVolumes := true, removeLinks := true, force := false }

/-- Mirrors `safeRemoveContainer` (dfile.go:79-105).  `stopErr` and
`removeErr` are the results of `ContainerStop` / `ContainerRemove` for
a given container ID.  Walks the listed containers; on the first one
whose `Names` contains `containerName`: stop it when `isStoppable`,
then remove it with `deployerRemoveOpts`, and `break`.  Returns the
outcome together with the API calls issued. -/
def safeRemoveContainer (stopErr removeErr : String → Option GoError)
    (containerName : String) :
    List ContainerSummary → Except GoError Unit × List DockerAction
  | [] => (.ok (), [])
  | c :: rest =>
    if containerName ∈ c.names then
      if isStoppable c.state then
        match stopErr c.id with
        | some e => (.error e, [.stop c.id])
        | none =>
          match removeErr c.id with
          | some e => (.error e, [.stop c.id, .remove c.id deployerRemoveOpts])
          | none => (.ok (), [.stop c.id, .remove c.id deployerRemoveOpts])
      else
        match removeErr c.id with
        | some e => (.error e, [.remove c.id deployerRemoveOpts])
        | none => (.ok (), [.remove c.id deployerRemoveOpts])
    else safeRemoveContainer stopErr removeErr containerName rest

/-- Mirrors `container.CreateResponse`. -/
structure CreateResponse where
  id : String
  warnings : List String
deriving Repr, DecidableEq

/-- The docker-runtime responses a deploy run observes. -/
structure DockerEnv where
  listResult : Except GoError (List ContainerSummary)
  stopErr : String → Option GoError
  removeErr : String → Option GoError
  createResult : String → Except GoError CreateResponse

/-- Mirrors `deployer.DeployParams` (deployer package). -/
structure DeployParams where
  containerName : String
deriving Repr, DecidableEq

def errDockerfileNotExist : GoError :=
  "dockerfile is not in the project's root directory"

/-- Mirrors `DockerfileDeployer.Deploy` (dfile.go:50-76): list the
containers, tear down the one matching `params.ContainerName`, then
`ContainerCreate` under that name.  Note that the cloned workspace is
not consulted at all: the function has no Dockerfile check and no
build step. -/
def dockerfileDeployerDeploy (env : DockerEnv) (params : DeployParams) :
    Except GoError Unit :=
  match env.listResult with
  | .error e => .error e
  | .ok containers =>
    match (safeRemoveContainer env.stopErr env.removeErr
            params.containerName containers).fst with
    | .error e => .error e
    | .ok _ =>
      match env.createResult params.containerName with
      | .error e => .error e
      | .ok _ => .ok ()

/-! ## Deploy invocation (deployer package, `DeployInvoker.Deploy`)
and `common.CleanDir` -/

/-- Mirrors `common.CleanDir` (common.go:58-78) on a directory holding
`entries`: remove each entry in order via `os.RemoveAll`; `removeFails`
says which removals fail.  Returns the outcome and the entries still
present afterwards (on the first failure the failing entry and the
ones after it remain). -/
def cleanDirGo (removeFails : String → Bool) :
    List String → Except GoError Unit × List String
  | [] => (.ok (), [])
  | n :: ns =>
    if removeFails n then (.error "remove failed", n :: ns)
    else cleanDirGo removeFails ns

/-- The external results a `DeployInvoker.Deploy` run observes:
whether `os.ReadDir` inside `common.IsDirEmpty` fails, which removals
inside `common.CleanDir` fail, what `git.Clone` produces (the entries
of the cloned tree, or an error), and the repo name used for the
container. -/
structure InvokerEnv where
  isDirEmptyErr : Option GoError
  removeFails : String → Bool
  cloneResult : Except GoError (List String)
  repoName : String

/-- What a `DeployInvoker.Deploy` run did: its outcome, the final
workspace entries, the workspace entries at the moment the clone step
started (`none` when the attempt aborted before cloning), and whether
the run delegated to the container deployer. -/
structure InvokeResult where
  outcome : Except GoError Unit
  entries : List String
  entriesAtClone : Option (List String)
  delegated : Bool

/-- The clone step and everything after it (part_001:70-78): read the
credential and repo URL, `git.Clone` into the workspace, then delegate
to the container deployer with `ContainerName = GetRepoName()`. -/
def invokerCloneAndDelegate (env : InvokerEnv) (docker : DockerEnv)
    (cur : List String) : InvokeResult :=
  match env.cloneResult with
  | .error e =>
    { outcome := .error e, entries := cur,
      entriesAtClone := some cur, delegated := false }
  | .ok cloned =>
    { outcome := dockerfileDeployerDeploy docker ⟨env.repoName⟩,
      entries := cloned, entriesAtClone := some cur, delegated := true }

/-- Mirrors `DeployInvoker.Deploy` (part_001:57-79): `IsDirEmpty`; if
non-empty, `CleanDir`; then clone and delegate.  Each step
short-circuits on failure. -/
def deployInvokerDeploy (env : InvokerEnv) (docker : DockerEnv)
    (entries : List String) : InvokeResult :=
  match env.isDirEmptyErr with
  | some e =>
    { outcome := .error e, entries := entries,
      entriesAtClone := none, delegated := false }
  | none =>
    if entries.length = 0 then
      invokerCloneAndDelegate env docker entries
    else
      match cleanDirGo env.removeFails entries with
      | (.error e, rem) =>
        { outcome := .error e, entries := rem,
          entriesAtClone := none, delegated := false }
      | (.ok _, rem) => invokerCloneAndDelegate env docker rem

/-- Mirrors the superseded `Deployer.Deploy` (deployer.go:51-94), the
variant of the deploy pipeline that checks for a Dockerfile after the
clone: clean, clone, `os.Stat(cloneDir + "/Dockerfile")` returning
`ErrDockerfileNotExist` when absent, then `docker build`.
`buildErr` is the result of the build command. -/
def oldDeployerDeploy (env : InvokerEnv) (buildErr : Option GoError)
    (entries : List String) : Except GoError Unit :=
  match env.isDirEmptyErr with
  | some e => .error e
  | none =>
    let afterClean :=
      if entries.length = 0 then .ok ()
      else (cleanDirGo env.removeFails entries).fst
    match afterClean with
    | .error e => .error e
    | .ok _ =>
      match env.cloneResult with
      | .error e => .error e
      | .ok cloned =>
        if "Dockerfile" ∈ cloned then
          match buildErr with
          | some e => .error e
          | none => .ok ()
        else .error errDockerfileNotExist

/-- The first listed container whose name set contains `name` — the
container the loop in `safeRemoveContainer` acts on. -/
def findTarget (name : String) : List ContainerSummary → Option ContainerSummary
  | [] => none
  | c :: rest => if name ∈ c.names then some c else findTarget name rest

/-- Deploy-attempt fixture for the missing-Dockerfile scenario: clean
workspace, clone succeeds and writes a tree without a Dockerfile. -/
def noDockerfileEnv : InvokerEnv :=
  { isDirEmptyErr := none, removeFails := fun _ => false,
    cloneResult := .ok ["main.go", "README.md"], repoName := "forge" }

/-- Docker runtime fixture where every API call succeeds and no
container pre-exists. -/
def allOkDocker : DockerEnv :=
  { listResult := .ok [], stopErr := fun _ => none,
    removeErr := fun _ => none,
    createResult := fun n => .ok { id := n, warnings := [] } }

/-- Whether a docker action is a `ContainerRemove` call. -/
def isRemoveAction : DockerAction → Bool
  | .remove _ _ => true
  | _ => false

/-- Whether a docker action is a `ContainerStop` call. -/
def isStopAction : DockerAction → Bool
  | .stop _ => true
  | _ => false

/-! ## Helper lemmas -/

theorem cleanDirGo_ok_empty (removeFails : String → Bool) :
    ∀ (l rem : List String) (u : Unit),
      cleanDirGo removeFails l = (.ok u, rem) → rem = [] := by
  intro l
  induction l with
  | nil =>
    intro rem u h
    simpa [cleanDirGo] using congrArg Prod.snd h
  | cons n ns ih =>
    intro rem u h
    by_cases hf : removeFails n
    · simp [cleanDirGo, hf] at h
    · simp only [cleanDirGo, hf, if_false, Bool.false_eq_true] at h
      exact ih rem u h

theorem findTarget_mem (name : String) :
    ∀ (l : List ContainerSummary) (c : ContainerSummary),
      findTarget name l = some c → c ∈ l ∧ name ∈ c.names := by
  intro l
  induction l with
  | nil => intro c h; simp [findTarget] at h
  | cons d rest ih =>
    intro c h
    by_cases hd : name ∈ d.names
    · simp [findTarget, hd] at h
      exact ⟨by simp [h], h ▸ hd⟩
    · simp only [findTarget, hd, if_false] at h
      rcases ih c h with ⟨hmem, hname⟩
      exact ⟨List.mem_cons_of_mem d hmem, hname⟩

theorem safeRemove_actions_eq
    (stopErr removeErr : String → Option GoError) (name : String) :
    ∀ containers : List ContainerSummary,
      (safeRemoveContainer stopErr removeErr name containers).snd =
        match findTarget name containers with
        | none => []
        | some c =>
          if isStoppable c.state then
            match stopErr c.id with
            | some _ => [.stop c.id]
            | none => [.stop c.id, .remove c.id deployerRemoveOpts]
          else [.remove c.id deployerRemoveOpts] := by
  intro containers
  induction containers with
  | nil => rfl
  | cons c rest ih =>
    by_cases h : name ∈ c.names
    · by_cases hs : isStoppable c.state
      · cases hse : stopErr c.id with
        | some e => simp [safeRemoveContainer, findTarget, h, hs, hse]
        | none =>
          cases hre : removeErr c.id with
          | some e => simp [safeRemoveContainer, findTarget, h, hs, hse, hre]
          | none => simp [safeRemoveContainer, findTarget, h, hs, hse, hre]
      · cases hre : removeErr c.id with
        | some e => simp [safeRemoveContainer, findTarget, h, hs, hre]
        | none => simp [safeRemoveContainer, findTarget, h, hs, hre]
    · simpa [safeRemoveContainer, findTarget, h] using ih

theorem observeTick_next_ge (last : Time) (t : TickInput) :
    ∀ l, (observeTick last t).snd = .next l → last ≤ l ∧ (l ≠ last → last < l) := by
  intro l h
  by_cases hc : t.cancelled
  · simp [observeTick, hc] at h
  · cases hf : t.fetch with
    | error e => simp [observeTick, hc, hf] at h
    | ok r =>
      by_cases hlt : last < r.pushedAt
      · by_cases hn : notifyCompletes t.subOutcomes
        · simp [observeTick, hc, hf, hlt, hn] at h
          exact ⟨h ▸ Nat.le_of_lt hlt, fun _ => h ▸ hlt⟩
        · simp [observeTick, hc, hf, hlt, hn] at h
      · simp [observeTick, hc, hf, hlt] at h
        exact ⟨h ▸ Nat.le_refl l, fun hne => absurd h.symm hne⟩

theorem observeTick_hang_eq (last : Time) (t : TickInput) :
    ∀ l, (observeTick last t).snd = .hang l → l = last := by
  intro l h
  by_cases hc : t.cancelled
  · simp [observeTick, hc] at h
  · cases hf : t.fetch with
    | error e => simp [observeTick, hc, hf] at h
    | ok r =>
      by_cases hlt : last < r.pushedAt
      · by_cases hn : notifyCompletes t.subOutcomes
        · simp [observeTick, hc, hf, hlt, hn] at h
        · simp [observeTick, hc, hf, hlt, hn] at h
          exact h.symm
      · simp [observeTick, hc, hf, hlt] at h

theorem watermarkAfterRun_ge (last : Time) (ts : List TickInput) :
    last ≤ watermarkAfterRun last ts := by
  induction ts generalizing last with
  | nil => exact Nat.le_refl last
  | cons t ts ih =>
    unfold watermarkAfterRun
    cases hstep : (observeTick last t).snd with
    | exitClean => exact Nat.le_refl last
    | exitErr e => exact Nat.le_refl last
    | hang l => exact Nat.le_of_eq (observeTick_hang_eq last t l hstep).symm
    | next l =>
      exact Nat.le_trans ((observeTick_next_ge last t l hstep).1) (ih l)

theorem observeRun_clean_cancelled :
    ∀ (ts : List TickInput) (last : Time),
      observeRun last ts = .clean → ∃ u ∈ ts, u.cancelled = true := by
  intro ts
  induction ts with
  | nil => intro last h; simp [observeRun] at h
  | cons t ts ih =>
    intro last h
    unfold observeRun at h
    cases hstep : (observeTick last t).snd with
    | exitClean =>
      refine ⟨t, List.mem_cons_self t ts, ?_⟩
      by_cases hc : t.cancelled
      · exact hc
      · cases hf : t.fetch with
        | error e => simp [observeTick, hc, hf] at hstep
        | ok r =>
          by_cases hlt : last < r.pushedAt
          · by_cases hn : notifyCompletes t.subOutcomes
            · simp [observeTick, hc, hf, hlt, hn] at hstep
            · simp [observeTick, hc, hf, hlt, hn] at hstep
          · simp [observeTick, hc, hf, hlt] at hstep
    | exitErr e => rw [hstep] at h; simp at h
    | hang l => rw [hstep] at h; simp at h
    | next l =>
      rw [hstep] at h
      rcases ih l h with ⟨u, hu, hcu⟩
      exact ⟨u, List.mem_cons_of_mem t hu, hcu⟩

theorem observeRun_err_fetch :
    ∀ (ts : List TickInput) (last : Time) (e : GoError),
      observeRun last ts = .err e →
      ∃ u ∈ ts, u.cancelled = false ∧ u.fetch = .error e := by
  intro ts
  induction ts with
  | nil => intro last e h; simp [observeRun] at h
  | cons t ts ih =>
    intro last e h
    unfold observeRun at h
    cases hstep : (observeTick last t).snd with
    | exitClean => rw [hstep] at h; simp at h
    | exitErr e2 =>
      rw [hstep] at h
      simp at h
      refine ⟨t, List.mem_cons_self t ts, ?_⟩
      by_cases hc : t.cancelled
      · simp [observeTick, hc] at hstep
      · cases hf : t.fetch with
        | error e3 =>
          simp [observeTick, hc, hf] at hstep
          refine ⟨Bool.eq_false_iff.mpr hc, ?_⟩
          rw [hstep, h]
        | ok r =>
          by_cases hlt : last < r.pushedAt
          · by_cases hn : notifyCompletes t.subOutcomes
            · simp [observeTick, hc, hf, hlt, hn] at hstep
            · simp [observeTick, hc, hf, hlt, hn] at hstep
          · simp [observeTick, hc, hf, hlt] at hstep
    | hang l => rw [hstep] at h; simp at h
    | next l =>
      rw [hstep] at h
      rcases ih l e h with ⟨u, hu, hcu⟩
      exact ⟨u, List.mem_cons_of_mem t hu, hcu⟩

/-! ## Claim theorems -/

/-- Claim C1, evaluated at the failing input.  The claim states that
`notify` releases one barrier slot per subscriber regardless of
outcome; in the code the goroutine returns before `wg.Done()` when the
subscriber errors, so a single failing subscriber releases no slot and
the barrier (`wg.Wait`) never completes — even when another subscriber
succeeded.  Only an all-success outcome list completes the barrier. -/
theorem notify_barrier_deadlocks_on_subscriber_failure :
    notifyDoneCalls [Except.error "subscriber failed"] = 0
    ∧ notifyCompletes [Except.error "subscriber failed"] = false
    ∧ notifyCompletes [Except.ok (), Except.error "subscriber failed"] = false
    ∧ notifyCompletes [Except.ok (), Except.ok ()] = true := by
  decide

/-- Claim C2: on a tick whose fetch succeeds, the notify fan-out runs
iff the snapshot's `pushedAt` is strictly after the watermark; any
watermark write carries the new `pushedAt` value and sits strictly
after `notify` returned in the tick's event order; when the fan-out
completes the tick ends with the watermark set to the new value; and a
tick whose `pushedAt` does not exceed the watermark (in particular,
equals it) performs no notify and leaves the watermark unchanged. -/
theorem tick_notifies_iff_strictly_newer (last : Time) (t : TickInput)
    (r : Repository) (hc : t.cancelled = false) (hf : t.fetch = .ok r) :
    (Event.notifyStart ∈ (observeTick last t).fst ↔ last < r.pushedAt)
    ∧ (∀ w, Event.setWatermark w ∈ (observeTick last t).fst →
        w = r.pushedAt ∧
        ∃ pre post, (observeTick last t).fst =
          pre ++ Event.notifyReturn :: post ∧ Event.setWatermark w ∈ post)
    ∧ (last < r.pushedAt → notifyCompletes t.subOutcomes = true →
        (observeTick last t).snd = .next r.pushedAt)
    ∧ (¬ last < r.pushedAt →
        Event.notifyStart ∉ (observeTick last t).fst
        ∧ (observeTick last t).snd = .next last) := by
  by_cases hlt : last < r.pushedAt
  · by_cases hn : notifyCompletes t.subOutcomes
    · refine ⟨?_, ?_, ?_, ?_⟩
      · simp [observeTick, hc, hf, hlt, hn]
      · intro w hw
        simp [observeTick, hc, hf, hlt, hn] at hw
        refine ⟨hw, [.fetchOk r.pushedAt, .notifyStart],
          [.setWatermark r.pushedAt, .sleep], ?_, ?_⟩
        · simp [observeTick, hc, hf, hlt, hn]
        · simp [hw]
      · intro _ _; simp [observeTick, hc, hf, hlt, hn]
      · intro hcon; exact absurd hlt hcon
    · refine ⟨?_, ?_, ?_, ?_⟩
      · simp [observeTick, hc, hf, hlt, hn]
      · intro w hw
        simp [observeTick, hc, hf, hlt, hn] at hw
      · intro _ hcompl
        rw [hcompl] at hn
        exact absurd rfl hn
      · intro hcon; exact absurd hlt hcon
  · refine ⟨?_, ?_, ?_, ?_⟩
    · simp [observeTick, hc, hf, hlt]
    · intro w hw
      simp [observeTick, hc, hf, hlt] at hw
    · intro hcon; exact absurd hcon hlt
    · intro _
      constructor
      · simp [observeTick, hc, hf, hlt]
      · simp [observeTick, hc, hf, hlt]

/-- Witness for C2 at a concrete tick: watermark 3, snapshot pushed at
7, one successful subscriber — the fan-out runs. -/
theorem tick_notifies_iff_strictly_newer_witness :
    Event.notifyStart ∈
      (observeTick 3 ⟨false, .ok { pushedAt := 7 }, [Except.ok ()]⟩).fst :=
  (tick_notifies_iff_strictly_newer 3 ⟨false, .ok { pushedAt := 7 }, [Except.ok ()]⟩
    { pushedAt := 7 } rfl rfl).1.mpr (by decide)

/-- Claim C3: the watermark is monotonically non-decreasing across any
run of the watch loop, and each individual tick that ends with
watermark `l` from watermark `l0` has `l0 ≤ l`, strictly so whenever
the tick actually assigned (changed) it. -/
theorem watermark_monotone (last : Time) (ts : List TickInput) :
    last ≤ watermarkAfterRun last ts
    ∧ ∀ (l0 : Time) (t : TickInput) (l : Time),
        (observeTick l0 t).snd = .next l → l0 ≤ l ∧ (l ≠ l0 → l0 < l) :=
  ⟨watermarkAfterRun_ge last ts, fun l0 t l h => observeTick_next_ge l0 t l h⟩

/-- Witness for C3: a two-tick run moving the watermark 2 → 9, and the
single-tick bound 2 ≤ 9. -/
theorem watermark_monotone_witness :
    2 ≤ watermarkAfterRun 2
        [⟨false, .ok { pushedAt := 9 }, []⟩, ⟨false, .ok { pushedAt := 9 }, []⟩]
    ∧ (2 ≤ 9 ∧ (9 ≠ 2 → 2 < 9)) :=
  ⟨(watermark_monotone 2
      [⟨false, .ok { pushedAt := 9 }, []⟩, ⟨false, .ok { pushedAt := 9 }, []⟩]).1,
   (watermark_monotone 2
      [⟨false, .ok { pushedAt := 9 }, []⟩, ⟨false, .ok { pushedAt := 9 }, []⟩]).2
     2 ⟨false, .ok { pushedAt := 9 }, []⟩ 9 (by decide)⟩

/-- Claim C5: a tick exits the loop cleanly iff the cancellation signal
was set at its top; it exits with error `e` iff it was not cancelled
and the fetch returned `e`; and over any schedule, a clean result shows
some tick was cancelled and an error result shows some tick's fetch
failed with exactly that error — no other in-loop event terminates. -/
theorem observe_loop_exits (last : Time) (t : TickInput) :
    ((observeTick last t).snd = .exitClean ↔ t.cancelled = true)
    ∧ (∀ e, (observeTick last t).snd = .exitErr e ↔
        (t.cancelled = false ∧ t.fetch = .error e))
    ∧ (∀ (ts : List TickInput) (l0 : Time),
        (observeRun l0 ts = .clean → ∃ u ∈ ts, u.cancelled = true)
        ∧ (∀ e, observeRun l0 ts = .err e →
            ∃ u ∈ ts, u.cancelled = false ∧ u.fetch = .error e)) := by
  refine ⟨?_, ?_, ?_⟩
  · constructor
    · intro h
      by_cases hc : t.cancelled
      · exact hc
      · cases hf : t.fetch with
        | error e => simp [observeTick, hc, hf] at h
        | ok r =>
          by_cases hlt : last < r.pushedAt
          · by_cases hn : notifyCompletes t.subOutcomes
            · simp [observeTick, hc, hf, hlt, hn] at h
            · simp [observeTick, hc, hf, hlt, hn] at h
          · simp [observeTick, hc, hf, hlt] at h
    · intro hc; simp [observeTick, hc]
  · intro e
    constructor
    · intro h
      by_cases hc : t.cancelled
      · simp [observeTick, hc] at h
      · cases hf : t.fetch with
        | error e2 =>
          simp [observeTick, hc, hf] at h
          exact ⟨Bool.eq_false_iff.mpr hc, by rw [h]⟩
        | ok r =>
          by_cases hlt : last < r.pushedAt
          · by_cases hn : notifyCompletes t.subOutcomes
            · simp [observeTick, hc, hf, hlt, hn] at h
            · simp [observeTick, hc, hf, hlt, hn] at h
          · simp [observeTick, hc, hf, hlt] at h
    · rintro ⟨hc, hf⟩
      simp [observeTick, hc, hf]
  · intro ts l0
    exact ⟨observeRun_clean_cancelled ts l0,
           fun e => observeRun_err_fetch ts l0 e⟩

/-- Witness for C5: a cancelled tick exits clean, and a schedule whose
second tick's fetch fails produces exactly that error. -/
theorem observe_loop_exits_witness :
    (observeTick 0 ⟨true, .ok {}, []⟩).snd = .exitClean
    ∧ ∃ u ∈ [TickInput.mk true (.ok {}) []], u.cancelled = true :=
  ⟨(observe_loop_exits 0 ⟨true, .ok {}, []⟩).1.mpr rfl,
   ((observe_loop_exits 0 ⟨true, .ok {}, []⟩).2.2
      [TickInput.mk true (.ok {}) []] 0).1 (by decide)⟩

/-- Claim C10: both `Ping` and `GetRepository` of the GitLab variant
return the unimplemented error for every input, and a watch loop
driven by the GitLab client terminates with that error on its first
tick's fetch (whatever the watermark, subscriber list or remaining
schedule). -/
theorem gitlab_unimplemented_kills_first_tick :
    (∀ ctx : Unit, gitlabPing ctx = .error errUnimplemented
      ∧ gitlabGetRepository ctx = .error errUnimplemented)
    ∧ ∀ (last : Time) (subs : List SubOutcome) (rest : List TickInput),
        observeRun last
          ({ cancelled := false, fetch := gitlabGetRepository (),
             subOutcomes := subs } :: rest) = .err errUnimplemented := by
  constructor
  · intro ctx; exact ⟨rfl, rfl⟩
  · intro last subs rest
    simp [observeRun, observeTick, gitlabGetRepository]

/-- Claim C4, evaluated at the failing input.  The claim states that a
deploy attempt whose cloned workspace lacks a root Dockerfile returns
the distinguished `DockerfileMissing` outcome.  In the wired pipeline
(`DeployInvoker.Deploy` delegating to `DockerfileDeployer.Deploy`) a
clone without a Dockerfile is not detected at all: the attempt
delegates, proceeds to container teardown/create and reports success,
and in particular never returns `errDockerfileNotExist`.  The
superseded `Deployer.Deploy` of deployer.go — whose error value
`ErrDockerfileNotExist` the deployer package still declares and main.go
still tests for — does return it on the same input. -/
theorem deploy_without_dockerfile_proceeds :
    "Dockerfile" ∉ (deployInvokerDeploy noDockerfileEnv allOkDocker []).entries
    ∧ (deployInvokerDeploy noDockerfileEnv allOkDocker []).outcome = .ok ()
    ∧ (deployInvokerDeploy noDockerfileEnv allOkDocker []).delegated = true
    ∧ oldDeployerDeploy noDockerfileEnv none [] = .error errDockerfileNotExist := by
  refine ⟨by decide, rfl, rfl, rfl⟩

/-- Claim C6: in every deploy invocation the workspace is empty at the
moment the clone step starts; a failing emptiness check aborts the
attempt with that error before any clone; a failing recursive clear
aborts likewise; and a failing clone aborts before delegating to the
container deployer. -/
theorem deploy_clean_room_and_short_circuit (env : InvokerEnv)
    (docker : DockerEnv) (entries : List String) :
    (∀ l, (deployInvokerDeploy env docker entries).entriesAtClone = some l →
      l = [])
    ∧ (∀ e, env.isDirEmptyErr = some e →
        deployInvokerDeploy env docker entries =
          { outcome := .error e, entries := entries,
            entriesAtClone := none, delegated := false })
    ∧ (∀ e rem, env.isDirEmptyErr = none →
        cleanDirGo env.removeFails entries = (.error e, rem) →
        (deployInvokerDeploy env docker entries).outcome = .error e
        ∧ (deployInvokerDeploy env docker entries).entriesAtClone = none
        ∧ (deployInvokerDeploy env docker entries).delegated = false)
    ∧ (∀ e, env.cloneResult = .error e →
        ∀ l, (deployInvokerDeploy env docker entries).entriesAtClone = some l →
        (deployInvokerDeploy env docker entries).outcome = .error e
        ∧ (deployInvokerDeploy env docker entries).delegated = false) := by
  cases henv : env.isDirEmptyErr with
  | some e0 =>
    refine ⟨?_, ?_, ?_, ?_⟩
    · intro l hl
      simp [deployInvokerDeploy, henv] at hl
    · intro e he
      cases he
      simp [deployInvokerDeploy, henv]
    · intro e rem hnone
      exact absurd hnone (by simp)
    · intro e _ l hl
      simp [deployInvokerDeploy, henv] at hl
  | none =>
    by_cases hlen : entries.length = 0
    · have hnil : entries = [] := List.length_eq_zero.mp hlen
      subst hnil
      refine ⟨?_, ?_, ?_, ?_⟩
      · intro l hl
        cases hcr : env.cloneResult with
        | error e =>
          simp [deployInvokerDeploy, invokerCloneAndDelegate, henv, hcr] at hl
          exact hl
        | ok cloned =>
          simp [deployInvokerDeploy, invokerCloneAndDelegate, henv, hcr] at hl
          exact hl
      · intro e he
        exact Option.noConfusion he
      · intro e rem _ hclean
        simp [cleanDirGo] at hclean
      · intro e hcr l _
        cases hcrr : env.cloneResult with
        | error e2 =>
          rw [hcrr] at hcr
          cases hcr
          simp [deployInvokerDeploy, invokerCloneAndDelegate, henv, hcrr]
        | ok cloned => rw [hcrr] at hcr; cases hcr
    · cases hcl : cleanDirGo env.removeFails entries with
      | mk fstc sndc =>
        cases fstc with
        | error ec =>
          refine ⟨?_, ?_, ?_, ?_⟩
          · intro l hl
            simp [deployInvokerDeploy, henv, hlen, hcl] at hl
          · intro e he
            exact Option.noConfusion he
          · intro e rem _ hclean
            simp only [Prod.mk.injEq, Except.error.injEq] at hclean
            rcases hclean with ⟨he1, -⟩
            subst he1
            simp [deployInvokerDeploy, henv, hlen, hcl]
          · intro e _ l hl
            simp [deployInvokerDeploy, henv, hlen, hcl] at hl
        | ok u =>
          have hrem : sndc = [] :=
            cleanDirGo_ok_empty env.removeFails entries sndc u hcl
          subst hrem
          refine ⟨?_, ?_, ?_, ?_⟩
          · intro l hl
            cases hcr : env.cloneResult with
            | error e =>
              simp [deployInvokerDeploy, invokerCloneAndDelegate, henv, hlen,
                hcl, hcr] at hl
              exact hl
            | ok cloned =>
              simp [deployInvokerDeploy, invokerCloneAndDelegate, henv, hlen,
                hcl, hcr] at hl
              exact hl
          · intro e he
            exact Option.noConfusion he
          · intro e rem _ hclean
            simp at hclean
          · intro e hcr l _
            cases hcrr : env.cloneResult with
            | error e2 =>
              rw [hcrr] at hcr
              cases hcr
              simp [deployInvokerDeploy, invokerCloneAndDelegate, henv, hlen,
                hcl, hcrr]
            | ok cloned => rw [hcrr] at hcr; cases hcr

/-- Witness for C6: a workspace holding one stale entry whose removal
succeeds and whose clone fails — the attempt aborts with the clone
error without delegating, and the workspace was empty at the clone
point. -/
theorem deploy_clean_room_witness :
    (deployInvokerDeploy
      { isDirEmptyErr := none, removeFails := fun _ => false,
        cloneResult := .error "clone failed", repoName := "forge" }
      allOkDocker ["stale.txt"]).outcome = .error "clone failed"
    ∧ (deployInvokerDeploy
      { isDirEmptyErr := none, removeFails := fun _ => false,
        cloneResult := .error "clone failed", repoName := "forge" }
      allOkDocker ["stale.txt"]).delegated = false :=
  (deploy_clean_room_and_short_circuit
    { isDirEmptyErr := none, removeFails := fun _ => false,
      cloneResult := .error "clone failed", repoName := "forge" }
    allOkDocker ["stale.txt"]).2.2.2 "clone failed" rfl [] rfl

/-- Claim C7: for both host variants, with otherwise-valid construction
parameters, client construction succeeds exactly when the repository
URL path decomposes into two `/`-separated segments (after dropping one
leading slash), and otherwise fails with the `InvalidRepositoryURL`
error — covering zero, one, and more than two segments. -/
theorem client_construction_two_segments (p : GitClientParams) (u : URL)
    (hr : p.repository = some u) (hh : p.httpClient ≠ none)
    (ht : p.accessToken ≠ "") :
    ((∃ c, githubNew p = .ok c) ↔
      (goSplitSlash (goTrimLeadSlash u.path)).length = 2)
    ∧ ((goSplitSlash (goTrimLeadSlash u.path)).length ≠ 2 →
        githubNew p = .error errInvalidRepoURL)
    ∧ ((∃ c, gitlabNew p = .ok c) ↔
      (goSplitSlash (goTrimLeadSlash u.path)).length = 2)
    ∧ ((goSplitSlash (goTrimLeadSlash u.path)).length ≠ 2 →
        gitlabNew p = .error errInvalidRepoURL) := by
  have hv : validateParams p = .ok () := by
    unfold validateParams
    rw [hr]
    simp only [Option.isNone_some, Bool.false_eq_true, if_false]
    rw [if_neg (by simpa [Option.isNone_iff_eq_none] using hh)]
    rw [if_neg ht]
  rcases hsegs : goSplitSlash (goTrimLeadSlash u.path) with - | ⟨a, - | ⟨b, - | ⟨c, t⟩⟩⟩
  · refine ⟨?_, ?_, ?_, ?_⟩ <;>
      simp [githubNew, gitlabNew, hv, hr, hsegs]
  · refine ⟨?_, ?_, ?_, ?_⟩ <;>
      simp [githubNew, gitlabNew, hv, hr, hsegs]
  · refine ⟨?_, ?_, ?_, ?_⟩ <;>
      simp [githubNew, gitlabNew, hv, hr, hsegs]
  · refine ⟨?_, ?_, ?_, ?_⟩ <;>
      simp [githubNew, gitlabNew, hv, hr, hsegs]

/-- Witness for C7: the two-segment path `/makefolder/forge` is
accepted and the three-segment path `/a/b/c` is rejected, on both
variants. -/
theorem client_construction_two_segments_witness :
    (∃ c, githubNew ⟨some ⟨"/makefolder/forge"⟩, "tok", some ()⟩ = .ok c)
    ∧ gitlabNew ⟨some ⟨"/a/b/c"⟩, "tok", some ()⟩ =
        .error errInvalidRepoURL :=
  ⟨(client_construction_two_segments
      ⟨some ⟨"/makefolder/forge"⟩, "tok", some ()⟩ ⟨"/makefolder/forge"⟩
      rfl (by simp) (by decide)).1.mpr (by decide),
   (client_construction_two_segments
      ⟨some ⟨"/a/b/c"⟩, "tok", some ()⟩ ⟨"/a/b/c"⟩
      rfl (by simp) (by decide)).2.2.2 (by decide)⟩

/-- Claim C8, counterexample: a configuration whose poll interval is
the negative value `-1` (all other fields valid) passes `MustParse`
without a fatal error, contradicting the claim that every non-positive
interval aborts startup. -/
theorem config_negative_interval_accepted :
    mustParse
      { accessToken := "tok", readFileErr := none, unmarshalErr := none,
        logOutputDir := "/logs", urlParseErr := none,
        repoHostname := "github.com",
        repoURLString := "https://github.com/makefolder/forge",
        cloneDir := "/clone", interval := -1, timeout := 2 } =
    .ok { observerInterval := -1, httpTimeout := 2, cloneDir := "/clone",
          logOutputDir := "/logs",
          repoURLString := "https://github.com/makefolder/forge",
          accessToken := "tok" } := by
  rfl

/-- Claim C8 as amended: with all other fields valid, `MustParse`
accepts a configuration exactly when the poll interval and the HTTP
timeout are nonzero — the zero values are startup-fatal, but negative
values pass validation. -/
theorem config_validation_rejects_exactly_zero (c : RawConfig)
    (h1 : c.accessToken ≠ "") (h2 : c.readFileErr = none)
    (h3 : c.unmarshalErr = none) (h4 : c.logOutputDir ≠ "")
    (h5 : c.urlParseErr = none) (h6 : c.repoURLString ≠ "")
    (h7 : c.repoHostname = githubHost ∨ c.repoHostname = gitlabHost)
    (h8 : c.cloneDir ≠ "") :
    (∃ cfg, mustParse c = .ok cfg) ↔ (c.interval ≠ 0 ∧ c.timeout ≠ 0) := by
  unfold mustParse
  rw [if_neg h1]
  rw [if_neg (by simp [h2])]
  rw [if_neg (by simp [h3])]
  rw [if_neg h4]
  rw [if_neg (by simp [h5])]
  rw [if_neg h6]
  rw [if_neg (not_not_intro h7)]
  rw [if_neg h8]
  by_cases hi : c.interval = 0
  · simp [hi]
  · by_cases hti : c.timeout = 0
    · simp [hi, hti]
    · simp [hi, hti]

/-- Witness for C8 (amended): a zero HTTP timeout with an otherwise
valid configuration is rejected. -/
theorem config_validation_rejects_exactly_zero_witness :
    ¬ ∃ cfg, mustParse
      { accessToken := "tok", readFileErr := none, unmarshalErr := none,
        logOutputDir := "/logs", urlParseErr := none,
        repoHostname := "gitlab.com",
        repoURLString := "https://gitlab.com/makefolder/forge",
        cloneDir := "/clone", interval := 30, timeout := 0 } = .ok cfg :=
  fun hex =>
    (((config_validation_rejects_exactly_zero
      { accessToken := "tok", readFileErr := none, unmarshalErr := none,
        logOutputDir := "/logs", urlParseErr := none,
        repoHostname := "gitlab.com",
        repoURLString := "https://gitlab.com/makefolder/forge",
        cloneDir := "/clone", interval := 30, timeout := 0 }
      (by decide) rfl rfl (by decide) rfl (by decide)
      (Or.inr rfl) (by decide)).mp hex).2 rfl)

theorem safeRemove_target
    (stopErr removeErr : String → Option GoError) (name : String)
    (containers : List ContainerSummary) (c : ContainerSummary)
    (hft : findTarget name containers = some c) :
    ∀ a ∈ (safeRemoveContainer stopErr removeErr name containers).snd,
      a.targetId = c.id := by
  rw [safeRemove_actions_eq, hft]
  by_cases hs : isStoppable c.state
  · cases hse : stopErr c.id with
    | some e => simp [hs, hse, DockerAction.targetId]
    | none =>
      cases hre : removeErr c.id with
      | some e => simp [hs, hse, hre, DockerAction.targetId]
      | none => simp [hs, hse, hre, DockerAction.targetId]
  · simp [hs, DockerAction.targetId]

/-- Claim C9: the teardown step acts on at most the first listed
container whose name set contains the target name — no match means no
docker call at all; for a match, every issued call addresses that
container, a stop is issued exactly when its state is in
running/paused/restarting and always precedes the removal, the removal
always carries volumes-but-no-force options, at most one stop and one
remove are issued, and (for distinct container IDs) no other listed
container is touched. -/
theorem teardown_touches_at_most_one_container
    (stopErr removeErr : String → Option GoError) (name : String)
    (containers : List ContainerSummary) :
    (findTarget name containers = none →
      (safeRemoveContainer stopErr removeErr name containers).snd = [])
    ∧ (∀ c, findTarget name containers = some c →
        (∀ a ∈ (safeRemoveContainer stopErr removeErr name containers).snd,
          a.targetId = c.id)
        ∧ ((DockerAction.stop c.id ∈
              (safeRemoveContainer stopErr removeErr name containers).snd) ↔
            isStoppable c.state = true)
        ∧ (∀ i o, DockerAction.remove i o ∈
              (safeRemoveContainer stopErr removeErr name containers).snd →
            i = c.id ∧ o = deployerRemoveOpts)
        ∧ (isStoppable c.state = true →
            (safeRemoveContainer stopErr removeErr name containers).snd.head? =
              some (.stop c.id))
        ∧ ((safeRemoveContainer stopErr removeErr name
              containers).snd.countP isRemoveAction ≤ 1)
        ∧ ((safeRemoveContainer stopErr removeErr name
              containers).snd.countP isStopAction ≤ 1))
    ∧ (List.Pairwise (fun c1 c2 => c1.id ≠ c2.id) containers →
        ∀ c2 ∈ containers, findTarget name containers ≠ some c2 →
        ∀ a ∈ (safeRemoveContainer stopErr removeErr name containers).snd,
          a.targetId ≠ c2.id) := by
  refine ⟨?_, ?_, ?_⟩
  · intro hnone
    rw [safeRemove_actions_eq, hnone]
  · intro c hft
    refine ⟨safeRemove_target stopErr removeErr name containers c hft,
      ?_, ?_, ?_, ?_, ?_⟩ <;>
      rw [safeRemove_actions_eq, hft] <;>
      by_cases hs : isStoppable c.state
    · cases hse : stopErr c.id with
      | some e => simp [hs, hse]
      | none =>
        cases hre : removeErr c.id with
        | some e => simp [hs, hse, hre]
        | none => simp [hs, hse, hre]
    · simp [hs]
    · cases hse : stopErr c.id with
      | some e => simp [hs, hse]
      | none =>
        cases hre : removeErr c.id with
        | some e => simp [hs, hse, hre]
        | none => simp [hs, hse, hre]
    · simp [hs]
    · cases hse : stopErr c.id with
      | some e => simp [hs, hse]
      | none =>
        cases hre : removeErr c.id with
        | some e => simp [hs, hse, hre]
        | none => simp [hs, hse, hre]
    · simp [hs]
    · cases hse : stopErr c.id with
      | some e => simp [hs, hse, List.countP, List.countP.go, isRemoveAction]
      | none =>
        cases hre : removeErr c.id with
        | some e => simp [hs, hse, hre, List.countP, List.countP.go, isRemoveAction]
        | none => simp [hs, hse, hre, List.countP, List.countP.go, isRemoveAction]
    · simp [hs, List.countP, List.countP.go, isRemoveAction]
    · cases hse : stopErr c.id with
      | some e => simp [hs, hse, List.countP, List.countP.go, isStopAction]
      | none =>
        cases hre : removeErr c.id with
        | some e => simp [hs, hse, hre, List.countP, List.countP.go, isStopAction]
        | none => simp [hs, hse, hre, List.countP, List.countP.go, isStopAction]
    · simp [hs, List.countP, List.countP.go, isStopAction]
  · intro hpw c2 hc2 hne a ha
    cases hft : findTarget name containers with
    | none =>
      rw [safeRemove_actions_eq, hft] at ha
      simp at ha
    | some c =>
      have hcid : a.targetId = c.id :=
        safeRemove_target stopErr removeErr name containers c hft a ha
      have hmem := findTarget_mem name containers c hft
      have hcc2 : c ≠ c2 := fun h => hne (h ▸ hft)
      have hid : c.id ≠ c2.id :=
        List.Pairwise.forall (fun _ _ h => Ne.symm h) hpw hmem.1 hc2 hcc2
      rw [hcid]
      exact hid

/-- Witness for C9 at a concrete docker state: containers `svc`
(running) and `other`; tearing down `/svc` stops then removes only the
first, and no action addresses `other`. -/
theorem teardown_touches_at_most_one_container_witness :
    ((DockerAction.stop "id-svc" ∈
      (safeRemoveContainer (fun _ => none) (fun _ => none) "/svc"
        [{ id := "id-svc", names := ["/svc"], state := .running },
         { id := "id-other", names := ["/other"], state := .running }]).snd) ↔
      isStoppable ContainerState.running = true)
    ∧ ∀ a ∈ (safeRemoveContainer (fun _ => none) (fun _ => none) "/svc"
        [{ id := "id-svc", names := ["/svc"], state := .running },
         { id := "id-other", names := ["/other"], state := .running }]).snd,
        a.targetId ≠ "id-other" := by
  constructor
  · exact ((teardown_touches_at_most_one_container (fun _ => none)
      (fun _ => none) "/svc"
      [{ id := "id-svc", names := ["/svc"], state := .running },
       { id := "id-other", names := ["/other"], state := .running }]).2.1
      { id := "id-svc", names := ["/svc"], state := .running }
      (by decide)).2.1
  · intro a ha
    exact (teardown_touches_at_most_one_container (fun _ => none)
      (fun _ => none) "/svc"
      [{ id := "id-svc", names := ["/svc"], state := .running },
       { id := "id-other", names := ["/other"], state := .running }]).2.2
      (by decide)
      { id := "id-other", names := ["/other"], state := .running }
      (by decide) (by decide) a ha

end Forge
